import Mathlib

/-!
Shallow embedding of the liferaft Raft node core (src/index.js).

The node's mutable fields, the `change` transition helper, the inbound
`data` handler, the timers (modelled as active/inactive flags), promotion,
and shutdown are translated function-by-function from the JavaScript
source.  JavaScript-specific behaviour that the claims depend on is kept:
`typeof null === 'object'`, truthiness of the empty string, comparisons
against `undefined`, and the fact that `end()` assigns `null` to the
`read`/`write` properties so a later invocation throws a TypeError.
-/

namespace Liferaft

/-- Role constants (src/index.js lines 96-99). -/
def LEADER : Int := 1

/-- `Node.CANDIDATE` (src/index.js line 97). -/
def CANDIDATE : Int := 2

/-- `Node.FOLLOWER` (src/index.js line 98). -/
def FOLLOWER : Int := 3

/-- `Node.STOPPED` (src/index.js line 99); never assigned by the core. -/
def STOPPED : Int := 4

/-- JavaScript truthiness of an optional string: `null`/`undefined` and the
empty string are falsy (used by `this.votes.for && ...`, line 192). -/
def jsTruthy : Option String → Bool
  | none => false
  | some s => s ≠ ""

/-- `a > b` where `a` may be `undefined` (a missing `term` field):
`undefined > n` is `false` in JavaScript. -/
def jsGT : Option Int → Int → Bool
  | none, _ => false
  | some a, b => b < a

/-- `a < b` where `a` may be `undefined`: `undefined < n` is `false`. -/
def jsLT : Option Int → Int → Bool
  | none, _ => false
  | some a, b => a < b

/-- `a === b` where `a` may be `undefined`: `undefined === n` is `false`. -/
def jsEqNum : Option Int → Int → Bool
  | none, _ => false
  | some a, b => a = b

/-- The `payload` body of a `voted` packet; `granted` defaults to false when
the field is absent (`undefined` is falsy). -/
structure PayloadObj where
  granted : Bool := false
  deriving DecidableEq

/-- A structured inbound object, with `none` standing for an absent
(`undefined`) field.  Mirrors the wire envelope built by `packet()`
(src/index.js lines 412-420). -/
structure PacketObj where
  term : Option Int := none
  state : Option Int := none
  type : Option String := none
  name : Option String := none
  data : Option Int := none
  payload : Option PayloadObj := none
  deriving DecidableEq

/-- A raw value handed to `read` / emitted as `'data'`.  `nonObject` covers
every value whose `typeof` is not `'object'` (dropped by the guard on
line 130); `jsNull` is `null`, whose `typeof` IS `'object'` and which
therefore reaches the field accesses. -/
inductive Inbound where
  | nonObject
  | jsNull
  | obj (p : PacketObj)
  deriving DecidableEq

/-- The mutable per-node state owned by the core (constructor, lines 41-76).
Timers are modelled by their active/inactive flags; durations are random
and irrelevant to the claims.  `state = none` models `this.state = null`
after `end()`. -/
structure NodeState where
  name : String
  state : Option Int
  leader : Option String
  term : Int
  votesFor : Option String
  votesGranted : Nat
  hbActive : Bool
  elActive : Bool
  nodesLen : Nat
  deriving DecidableEq

/-- Externally observable actions of a transition: the three `change`
events, the `'heartbeat timeout'` and `'vote'` events, calls to the
`write` stub (the outbound-sink entry point), and a packet built and
then discarded by `broadcast`. -/
inductive Eff where
  | termChange (c p : Int)
  | leaderChange (c p : Option String)
  | stateChange (c p : Option Int)
  | heartbeatTimeout
  | voteEvent (granted : Bool)
  | writeCall (granted : Bool)
  | broadcastCall (pkt : PacketObj)
  deriving DecidableEq

/-- A partial update for `change(changed)` (line 270): each field is
present or absent. -/
structure Delta where
  term : Option Int := none
  leader : Option (Option String) := none
  state : Option Int := none
  deriving DecidableEq

/-- Result of running an inbound-data transition: the state after it, the
effects it produced, and whether a TypeError escaped. -/
structure Result where
  st : NodeState
  effs : List Eff
  err : Bool
  deriving DecidableEq

/-- `quorum()` (line 260): `Math.ceil(this.nodes.length / 2) + 1`.
For a natural `n`, `Math.ceil(n / 2) = (n + 1) / 2` in Nat division.
The peer collection `nodes` itself is supplied by the membership layer
outside src/; the core reads only its size, kept in `nodesLen`. -/
def quorum (s : NodeState) : Nat :=
  (s.nodesLen + 1) / 2 + 1

/-- `heartbeat(duration)` (lines 299-320), state effect only: if the
`heartbeat` timer is active it is merely adjusted (stays active),
otherwise a one-shot timer is scheduled. -/
def heartbeat (s : NodeState) : NodeState :=
  if s.hbActive then s else { s with hbActive := true }

/-- The `term` leg of `change` plus its synchronous `'term change'`
listener (lines 112-115): the listener resets the vote record. -/
def changeTerm (s : NodeState) (t? : Option Int) : NodeState × List Eff :=
  match t? with
  | none => (s, [])
  | some t =>
    if t ≠ s.term then
      ({ s with term := t, votesFor := none, votesGranted := 0 },
       [Eff.termChange t s.term])
    else (s, [])

/-- The `leader` leg of `change`; no listener is attached. -/
def changeLeader (s : NodeState) (l? : Option (Option String)) : NodeState × List Eff :=
  match l? with
  | none => (s, [])
  | some l =>
    if l ≠ s.leader then
      ({ s with leader := l }, [Eff.leaderChange l s.leader])
    else (s, [])

/-- The `state` leg of `change` plus its synchronous `'state change'`
listener (lines 121-124): `timers.clear()` deactivates both timers, then
`heartbeat()` re-arms only the heartbeat watchdog. -/
def changeState (s : NodeState) (v? : Option Int) : NodeState × List Eff :=
  match v? with
  | none => (s, [])
  | some v =>
    if some v ≠ s.state then
      (heartbeat { s with state := some v, hbActive := false, elActive := false },
       [Eff.stateChange (some v) s.state])
    else (s, [])

/-- `change(changed)` (lines 270-288): fields are processed in the fixed
order `term`, `leader`, `state`; each differing field is written and its
`'<field> change'` event (with listeners) fires synchronously. -/
def change (s : NodeState) (d : Delta) : NodeState × List Eff :=
  let r1 := changeTerm s d.term
  let r2 := changeLeader r1.1 d.leader
  let r3 := changeState r2.1 d.state
  (r3.1, r1.2 ++ r2.2 ++ r3.2)

/-- `packet(type, data)` (lines 412-420): wrap outbound data in the
envelope carrying the sender's state, term and name. -/
def packet (s : NodeState) (ty : String) (d : Option Int) : PacketObj :=
  { state := s.state, term := some s.term, name := some s.name,
    data := d, type := some ty }

/-- `broadcast(type, data)` (lines 400-402): the packet is constructed and
then discarded — it is never handed to `write` or emitted anywhere. -/
def broadcast (s : NodeState) (ty : String) : List Eff :=
  [Eff.broadcastCall (packet s ty none)]

/-- `promote()` (lines 345-367): become candidate for the next term via
`change`, self-vote, and arm the `election` timer. -/
def promote (s : NodeState) : NodeState × List Eff :=
  let r := change s { term := some (s.term + 1), leader := some (some ""), state := some CANDIDATE }
  let s2 := { r.1 with votesFor := some r.1.name, votesGranted := 1 }
  ({ s2 with elActive := true }, r.2)

/-- Expiry of the `heartbeat` timer: the one-shot timer is consumed, then
the callback (lines 307-317) runs — a non-LEADER emits
`'heartbeat timeout'` and promotes itself; a LEADER calls
`broadcast('heartbeat')` and nothing more. -/
def heartbeatTimerFire (s : NodeState) : NodeState × List Eff :=
  let s0 : NodeState := { s with hbActive := false }
  if some LEADER ≠ s0.state then
    let r := promote s0
    (r.1, Eff.heartbeatTimeout :: r.2)
  else
    (s0, broadcast s0 "heartbeat")

/-- Expiry of the `election` timer (armed in `promote`, line 364): the
one-shot timer is consumed and `promote` runs again. -/
def electionTimerFire (s : NodeState) : NodeState × List Eff :=
  promote { s with elActive := false }

/-- Rule A, term reconciliation (lines 144-151): a higher inbound term
demotes to FOLLOWER at that term; a stale term drops the packet
(`none`); an equal or absent term continues unchanged. -/
def ruleA (s : NodeState) (p : PacketObj) : Option (NodeState × List Eff) :=
  if jsGT p.term s.term then
    some (change s { state := some FOLLOWER, term := p.term })
  else if jsLT p.term s.term then
    none
  else
    some (s, [])

/-- Rule B, leader recognition (lines 160-162): a packet from a sender in
LEADER state demotes a non-FOLLOWER recipient. -/
def ruleB (s : NodeState) (p : PacketObj) : NodeState × List Eff :=
  if p.state = some LEADER ∧ s.state ≠ some FOLLOWER then
    change s { state := some FOLLOWER }
  else (s, [])

/-- Grant branch of the `vote` case (lines 207-209): record the vote, emit
`'vote'` with `true`, call `write` with `{granted: true}`. -/
def grantVote (s : NodeState) (pre : List Eff) (p : PacketObj) : Result :=
  ⟨{ s with votesFor := p.name }, pre ++ [Eff.voteEvent true, Eff.writeCall true], false⟩

/-- The `case 'vote'` body (lines 178-210). -/
def voteCase (s : NodeState) (p : PacketObj) : Result :=
  if jsLT p.term s.term then
    ⟨s, [Eff.voteEvent false, Eff.writeCall false], false⟩
  else if jsGT p.term s.term then
    grantVote (change s { term := p.term }).1 (change s { term := p.term }).2 p
  else if jsTruthy s.votesFor ∧ s.votesFor ≠ p.name then
    ⟨s, [Eff.voteEvent false, Eff.writeCall false], false⟩
  else
    grantVote s [] p

/-- Lines 225-227: increment the received tally when the solicited vote
was granted in our current term. -/
def votedTally (s : NodeState) (p : PacketObj) (pl : PayloadObj) : NodeState :=
  if pl.granted ∧ jsEqNum p.term s.term then
    { s with votesGranted := s.votesGranted + 1 }
  else s

/-- Line 232: update our term if it is out of sync (unreachable after
Rule A, but present in the source). -/
def votedReconcile (s : NodeState) (p : PacketObj) : NodeState × List Eff :=
  if jsGT p.term s.term then change s { term := p.term } else (s, [])

/-- Lines 238-243: once the granted tally reaches the quorum, become the
leader of the cluster via `change`. -/
def votedQuorum (s : NodeState) (pre : List Eff) : Result :=
  if quorum s ≤ s.votesGranted then
    ⟨(change s { leader := some (some s.name), state := some LEADER }).1,
     pre ++ (change s { leader := some (some s.name), state := some LEADER }).2, false⟩
  else ⟨s, pre, false⟩

/-- The `case 'voted'` body (lines 215-243).  Accessing
`data.payload.granted` with an absent payload throws a TypeError. -/
def votedCase (s : NodeState) (p : PacketObj) : Result :=
  if some CANDIDATE ≠ s.state then ⟨s, [], false⟩
  else
    match p.payload with
    | none => ⟨s, [], true⟩
    | some pl =>
      votedQuorum (votedReconcile (votedTally s p pl) p).1
        (votedReconcile (votedTally s p pl) p).2

/-- The `switch (data.type)` dispatch (lines 164-248): a heartbeat from a
LEADER re-arms (or adjusts) the heartbeat watchdog; `vote` and `voted`
run their cases; `rpc` and anything else do nothing. -/
def dispatch (s : NodeState) (p : PacketObj) : Result :=
  if p.type = some "heartbeat" then
    if p.state = some LEADER then ⟨heartbeat s, [], false⟩ else ⟨s, [], false⟩
  else if p.type = some "vote" then voteCase s p
  else if p.type = some "voted" then votedCase s p
  else ⟨s, [], false⟩

/-- The `'data'` listener `incoming(data)` (lines 129-249).  Non-objects
are dropped by the `typeof` guard; `null` passes the guard (its `typeof`
is `'object'`) and then `data.term` throws a TypeError; structured
objects flow through rules A, B and the type dispatch. -/
def incoming (s : NodeState) (d : Inbound) : Result :=
  match d with
  | .nonObject => ⟨s, [], false⟩
  | .jsNull => ⟨s, [], true⟩
  | .obj p =>
    match ruleA s p with
    | none => ⟨s, [], false⟩
    | some r1 =>
      let r2 := ruleB r1.1 p
      let r3 := dispatch r2.1 p
      ⟨r3.st, r1.2 ++ r2.2 ++ r3.effs, r3.err⟩

/-- The freshly constructed node (constructor, lines 41-76): FOLLOWER,
term 0, no leader, no vote, no timer armed.  `nodesLen` stands for
`this.nodes.length`, the peer-set size supplied by the membership
provider outside src/. -/
def initialNode (name : String) (nodesLen : Nat) : NodeState :=
  { name := name, state := some FOLLOWER, leader := none, term := 0,
    votesFor := none, votesGranted := 0,
    hbActive := false, elActive := false, nodesLen := nodesLen }

/-- `end()` (lines 428-437): `!this.state` short-circuits when already
stopped; otherwise all timers end, every listener is removed, and
`timers`, `state`, `write` and `read` are all assigned `null`. -/
def endNode (s : NodeState) : NodeState × Bool :=
  if s.state = none then (s, false)
  else ({ s with state := none, hbActive := false, elActive := false }, true)

/-- Outcome of invoking one of the public methods whose property `end()`
nulls out: either a returned boolean (with the state and effects), or a
thrown TypeError. -/
inductive CallResult where
  | ret (b : Bool) (s : NodeState) (effs : List Eff)
  | typeError
  deriving DecidableEq

/-- A public `node.read(packet)` invocation (lines 388-390).  After
`end()` the own property `read` is `null`, so the call throws; on a live
node `read` emits `'data'` (whose listener exists, so `emit` returns
true) and any TypeError from the listener escapes. -/
def readNode (s : NodeState) (d : Inbound) : CallResult :=
  if s.state = none then .typeError
  else
    let r := incoming s d
    if r.err then .typeError else .ret true r.st r.effs

/-- A public `node.write(packet)` invocation (lines 378-380).  After
`end()` the own property `write` is `null`, so the call throws; the live
prototype stub transmits nothing and returns false. -/
def writeNode (s : NodeState) : CallResult :=
  if s.state = none then .typeError
  else .ret false s []

/-- State after a `read` invocation: a stopped node throws before the
listener runs, so its state is unchanged. -/
def readStep (s : NodeState) (d : Inbound) : NodeState :=
  if s.state = none then s else (incoming s d).st

/-- One externally triggerable transition: an inbound packet, the expiry
of an armed timer, or `end()`. -/
inductive Step : NodeState → NodeState → Prop where
  | read (d : Inbound) : Step s (readStep s d)
  | hbFire (h : s.hbActive = true) : Step s (heartbeatTimerFire s).1
  | elFire (h : s.elActive = true) : Step s (electionTimerFire s).1
  | stop : Step s (endNode s).1

/-- States reachable from the fresh node by external transitions. -/
def Reachable (s0 s : NodeState) : Prop :=
  Relation.ReflTransGen Step s0 s

/-- The only values the code ever assigns to `leader` are the empty string
(in `promote`) and the node's own name (on winning an election); `null`
is the constructor value. -/
def LeaderOK (s : NodeState) : Prop :=
  s.leader = none ∨ s.leader = some "" ∨ s.leader = some s.name

/-- A concrete candidate in a 3-peer cluster at term 1 holding 2 granted
votes, one short of the quorum of 3. -/
def candTestNode : NodeState :=
  { initialNode "n1" 3 with state := some CANDIDATE, term := 1, votesGranted := 2 }

/-- A concrete granted `voted` tally packet for term 1. -/
def votedTestPacket : PacketObj :=
  { term := some 1, state := some FOLLOWER, type := some "voted",
    payload := some { granted := true } }

/-! ### Supporting lemmas about the embedded operations -/

theorem jsGT_iff (a? : Option Int) (b : Int) :
    jsGT a? b = true ↔ ∃ a, a? = some a ∧ b < a := by
  cases a? <;> simp [jsGT]

theorem jsLT_iff (a? : Option Int) (b : Int) :
    jsLT a? b = true ↔ ∃ a, a? = some a ∧ a < b := by
  cases a? <;> simp [jsLT]

@[simp] theorem heartbeat_state (s : NodeState) : (heartbeat s).state = s.state := by
  unfold heartbeat; split <;> rfl

@[simp] theorem heartbeat_term (s : NodeState) : (heartbeat s).term = s.term := by
  unfold heartbeat; split <;> rfl

@[simp] theorem heartbeat_name (s : NodeState) : (heartbeat s).name = s.name := by
  unfold heartbeat; split <;> rfl

@[simp] theorem heartbeat_leader (s : NodeState) : (heartbeat s).leader = s.leader := by
  unfold heartbeat; split <;> rfl

@[simp] theorem heartbeat_votesFor (s : NodeState) : (heartbeat s).votesFor = s.votesFor := by
  unfold heartbeat; split <;> rfl

@[simp] theorem heartbeat_votesGranted (s : NodeState) :
    (heartbeat s).votesGranted = s.votesGranted := by
  unfold heartbeat; split <;> rfl

@[simp] theorem heartbeat_nodesLen (s : NodeState) :
    (heartbeat s).nodesLen = s.nodesLen := by
  unfold heartbeat; split <;> rfl

@[simp] theorem changeTerm_term (s : NodeState) (t? : Option Int) :
    (changeTerm s t?).1.term = t?.getD s.term := by
  cases t? with
  | none => rfl
  | some t =>
    by_cases h : t = s.term <;> simp [changeTerm, h]

@[simp] theorem changeTerm_name (s : NodeState) (t? : Option Int) :
    (changeTerm s t?).1.name = s.name := by
  cases t? with
  | none => rfl
  | some t => by_cases h : t = s.term <;> simp [changeTerm, h]

@[simp] theorem changeTerm_leader (s : NodeState) (t? : Option Int) :
    (changeTerm s t?).1.leader = s.leader := by
  cases t? with
  | none => rfl
  | some t => by_cases h : t = s.term <;> simp [changeTerm, h]

@[simp] theorem changeTerm_state (s : NodeState) (t? : Option Int) :
    (changeTerm s t?).1.state = s.state := by
  cases t? with
  | none => rfl
  | some t => by_cases h : t = s.term <;> simp [changeTerm, h]

@[simp] theorem changeTerm_nodesLen (s : NodeState) (t? : Option Int) :
    (changeTerm s t?).1.nodesLen = s.nodesLen := by
  cases t? with
  | none => rfl
  | some t => by_cases h : t = s.term <;> simp [changeTerm, h]

theorem changeTerm_votes_of_ne (s : NodeState) (t? : Option Int)
    (h : (changeTerm s t?).1.term ≠ s.term) :
    (changeTerm s t?).1.votesFor = none ∧ (changeTerm s t?).1.votesGranted = 0 := by
  cases t? with
  | none => exact absurd rfl h
  | some t =>
    by_cases ht : t = s.term
    · simp [changeTerm, ht] at h
    · simp [changeTerm, ht]

@[simp] theorem changeLeader_term (s : NodeState) (l? : Option (Option String)) :
    (changeLeader s l?).1.term = s.term := by
  cases l? with
  | none => rfl
  | some l => by_cases h : l = s.leader <;> simp [changeLeader, h]

@[simp] theorem changeLeader_name (s : NodeState) (l? : Option (Option String)) :
    (changeLeader s l?).1.name = s.name := by
  cases l? with
  | none => rfl
  | some l => by_cases h : l = s.leader <;> simp [changeLeader, h]

@[simp] theorem changeLeader_leader (s : NodeState) (l? : Option (Option String)) :
    (changeLeader s l?).1.leader = l?.getD s.leader := by
  cases l? with
  | none => rfl
  | some l => by_cases h : l = s.leader <;> simp [changeLeader, h]

@[simp] theorem changeLeader_state (s : NodeState) (l? : Option (Option String)) :
    (changeLeader s l?).1.state = s.state := by
  cases l? with
  | none => rfl
  | some l => by_cases h : l = s.leader <;> simp [changeLeader, h]

@[simp] theorem changeLeader_votesFor (s : NodeState) (l? : Option (Option String)) :
    (changeLeader s l?).1.votesFor = s.votesFor := by
  cases l? with
  | none => rfl
  | some l => by_cases h : l = s.leader <;> simp [changeLeader, h]

@[simp] theorem changeLeader_votesGranted (s : NodeState) (l? : Option (Option String)) :
    (changeLeader s l?).1.votesGranted = s.votesGranted := by
  cases l? with
  | none => rfl
  | some l => by_cases h : l = s.leader <;> simp [changeLeader, h]

@[simp] theorem changeLeader_nodesLen (s : NodeState) (l? : Option (Option String)) :
    (changeLeader s l?).1.nodesLen = s.nodesLen := by
  cases l? with
  | none => rfl
  | some l => by_cases h : l = s.leader <;> simp [changeLeader, h]

@[simp] theorem changeState_term (s : NodeState) (v? : Option Int) :
    (changeState s v?).1.term = s.term := by
  cases v? with
  | none => rfl
  | some v => by_cases h : some v = s.state <;> simp [changeState, h]

@[simp] theorem changeState_name (s : NodeState) (v? : Option Int) :
    (changeState s v?).1.name = s.name := by
  cases v? with
  | none => rfl
  | some v => by_cases h : some v = s.state <;> simp [changeState, h]

@[simp] theorem changeState_leader (s : NodeState) (v? : Option Int) :
    (changeState s v?).1.leader = s.leader := by
  cases v? with
  | none => rfl
  | some v => by_cases h : some v = s.state <;> simp [changeState, h]

@[simp] theorem changeState_votesFor (s : NodeState) (v? : Option Int) :
    (changeState s v?).1.votesFor = s.votesFor := by
  cases v? with
  | none => rfl
  | some v => by_cases h : some v = s.state <;> simp [changeState, h]

@[simp] theorem changeState_votesGranted (s : NodeState) (v? : Option Int) :
    (changeState s v?).1.votesGranted = s.votesGranted := by
  cases v? with
  | none => rfl
  | some v => by_cases h : some v = s.state <;> simp [changeState, h]

@[simp] theorem changeState_nodesLen (s : NodeState) (v? : Option Int) :
    (changeState s v?).1.nodesLen = s.nodesLen := by
  cases v? with
  | none => rfl
  | some v => by_cases h : some v = s.state <;> simp [changeState, h]

@[simp] theorem change_term (s : NodeState) (d : Delta) :
    (change s d).1.term = d.term.getD s.term := by
  simp [change]

@[simp] theorem change_name (s : NodeState) (d : Delta) :
    (change s d).1.name = s.name := by
  simp [change]

@[simp] theorem change_leader (s : NodeState) (d : Delta) :
    (change s d).1.leader = d.leader.getD s.leader := by
  simp [change]

@[simp] theorem change_nodesLen (s : NodeState) (d : Delta) :
    (change s d).1.nodesLen = s.nodesLen := by
  simp [change]

theorem change_votes_of_term_ne (s : NodeState) (d : Delta)
    (h : (change s d).1.term ≠ s.term) :
    (change s d).1.votesFor = none ∧ (change s d).1.votesGranted = 0 := by
  have hterm : (changeTerm s d.term).1.term ≠ s.term := by
    rw [changeTerm_term]
    intro he
    exact h (by rw [change_term]; exact he)
  have hv := changeTerm_votes_of_ne s d.term hterm
  exact ⟨by simp [change, hv.1], by simp [change, hv.2]⟩

@[simp] theorem grantVote_term (s : NodeState) (pre : List Eff) (p : PacketObj) :
    (grantVote s pre p).st.term = s.term := rfl

@[simp] theorem grantVote_name (s : NodeState) (pre : List Eff) (p : PacketObj) :
    (grantVote s pre p).st.name = s.name := rfl

@[simp] theorem grantVote_leader (s : NodeState) (pre : List Eff) (p : PacketObj) :
    (grantVote s pre p).st.leader = s.leader := rfl

theorem voteCase_term_mono (s : NodeState) (p : PacketObj) :
    s.term ≤ (voteCase s p).st.term := by
  unfold voteCase
  split_ifs with h1 h2 h3
  · exact le_refl _
  · obtain ⟨t, ht, hlt⟩ := (jsGT_iff _ _).1 h2
    simp [ht]
    exact le_of_lt hlt
  · exact le_refl _
  · exact le_refl _

theorem voteCase_name (s : NodeState) (p : PacketObj) :
    (voteCase s p).st.name = s.name := by
  unfold voteCase
  split_ifs <;> simp

theorem voteCase_leader (s : NodeState) (p : PacketObj) :
    (voteCase s p).st.leader = s.leader := by
  unfold voteCase
  split_ifs <;> simp

@[simp] theorem votedTally_term (s : NodeState) (p : PacketObj) (pl : PayloadObj) :
    (votedTally s p pl).term = s.term := by
  unfold votedTally; split <;> rfl

@[simp] theorem votedTally_name (s : NodeState) (p : PacketObj) (pl : PayloadObj) :
    (votedTally s p pl).name = s.name := by
  unfold votedTally; split <;> rfl

@[simp] theorem votedTally_leader (s : NodeState) (p : PacketObj) (pl : PayloadObj) :
    (votedTally s p pl).leader = s.leader := by
  unfold votedTally; split <;> rfl

theorem votedReconcile_term_mono (s : NodeState) (p : PacketObj) :
    s.term ≤ (votedReconcile s p).1.term := by
  unfold votedReconcile
  split_ifs with h
  · obtain ⟨t, ht, hlt⟩ := (jsGT_iff _ _).1 h
    simp [ht]
    exact le_of_lt hlt
  · exact le_refl _

@[simp] theorem votedReconcile_name (s : NodeState) (p : PacketObj) :
    (votedReconcile s p).1.name = s.name := by
  unfold votedReconcile
  split_ifs <;> simp

@[simp] theorem votedReconcile_leader (s : NodeState) (p : PacketObj) :
    (votedReconcile s p).1.leader = s.leader := by
  unfold votedReconcile
  split_ifs <;> simp

theorem votedQuorum_term (s : NodeState) (pre : List Eff) :
    (votedQuorum s pre).st.term = s.term := by
  unfold votedQuorum
  split_ifs <;> simp

theorem votedQuorum_name (s : NodeState) (pre : List Eff) :
    (votedQuorum s pre).st.name = s.name := by
  unfold votedQuorum
  split_ifs <;> simp

theorem votedQuorum_leader (s : NodeState) (pre : List Eff) :
    (votedQuorum s pre).st.leader = s.leader ∨ (votedQuorum s pre).st.leader = some s.name := by
  unfold votedQuorum
  split_ifs <;> simp

theorem votedCase_term_mono (s : NodeState) (p : PacketObj) :
    s.term ≤ (votedCase s p).st.term := by
  unfold votedCase
  split
  · exact le_refl _
  split
  · exact le_refl _
  case h_2 pl hpl =>
    rw [votedQuorum_term]
    calc s.term = (votedTally s p pl).term := (votedTally_term s p pl).symm
      _ ≤ (votedReconcile (votedTally s p pl) p).1.term := votedReconcile_term_mono _ p

theorem votedCase_name (s : NodeState) (p : PacketObj) :
    (votedCase s p).st.name = s.name := by
  unfold votedCase
  split
  · rfl
  split
  · rfl
  case h_2 pl hpl =>
    rw [votedQuorum_name, votedReconcile_name, votedTally_name]

theorem votedCase_leader (s : NodeState) (p : PacketObj) :
    (votedCase s p).st.leader = s.leader ∨ (votedCase s p).st.leader = some s.name := by
  unfold votedCase
  split
  · left; rfl
  split
  · left; rfl
  case h_2 pl hpl =>
    rcases votedQuorum_leader (votedReconcile (votedTally s p pl) p).1
        (votedReconcile (votedTally s p pl) p).2 with h | h
    · rw [h, votedReconcile_leader, votedTally_leader]
      exact Or.inl rfl
    · rw [h, votedReconcile_name, votedTally_name]
      exact Or.inr rfl

theorem dispatch_term_mono (s : NodeState) (p : PacketObj) :
    s.term ≤ (dispatch s p).st.term := by
  unfold dispatch
  split_ifs
  · simp
  · exact le_refl _
  · exact voteCase_term_mono s p
  · exact votedCase_term_mono s p
  · exact le_refl _

theorem dispatch_name (s : NodeState) (p : PacketObj) :
    (dispatch s p).st.name = s.name := by
  unfold dispatch
  split_ifs
  · simp
  · rfl
  · exact voteCase_name s p
  · exact votedCase_name s p
  · rfl

theorem dispatch_leader (s : NodeState) (p : PacketObj) :
    (dispatch s p).st.leader = s.leader ∨ (dispatch s p).st.leader = some s.name := by
  unfold dispatch
  split_ifs
  · simp
  · exact Or.inl rfl
  · exact Or.inl (voteCase_leader s p)
  · exact votedCase_leader s p
  · exact Or.inl rfl

@[simp] theorem ruleB_term (s : NodeState) (p : PacketObj) :
    (ruleB s p).1.term = s.term := by
  unfold ruleB
  split <;> simp

@[simp] theorem ruleB_name (s : NodeState) (p : PacketObj) :
    (ruleB s p).1.name = s.name := by
  unfold ruleB
  split <;> simp

@[simp] theorem ruleB_leader (s : NodeState) (p : PacketObj) :
    (ruleB s p).1.leader = s.leader := by
  unfold ruleB
  split <;> simp [change]

@[simp] theorem ruleB_votesFor (s : NodeState) (p : PacketObj) :
    (ruleB s p).1.votesFor = s.votesFor := by
  unfold ruleB
  split <;> simp [change, changeTerm, changeLeader]

theorem ruleA_term_mono (s : NodeState) (p : PacketObj) (r : NodeState × List Eff)
    (h : ruleA s p = some r) : s.term ≤ r.1.term := by
  unfold ruleA at h
  split_ifs at h with h1 h2
  · obtain ⟨t, ht, hlt⟩ := (jsGT_iff _ _).1 h1
    obtain rfl := Option.some.inj h
    simp [ht]
    exact le_of_lt hlt
  · obtain rfl := Option.some.inj h
    exact le_refl _

theorem ruleA_name (s : NodeState) (p : PacketObj) (r : NodeState × List Eff)
    (h : ruleA s p = some r) : r.1.name = s.name := by
  unfold ruleA at h
  split_ifs at h with h1 h2
  · obtain rfl := Option.some.inj h
    simp
  · obtain rfl := Option.some.inj h
    rfl

theorem ruleA_leader (s : NodeState) (p : PacketObj) (r : NodeState × List Eff)
    (h : ruleA s p = some r) : r.1.leader = s.leader := by
  unfold ruleA at h
  split_ifs at h with h1 h2
  · obtain rfl := Option.some.inj h
    simp [change]
  · obtain rfl := Option.some.inj h
    rfl

theorem incoming_term_mono (s : NodeState) (d : Inbound) :
    s.term ≤ (incoming s d).st.term := by
  cases d with
  | nonObject => exact le_refl _
  | jsNull => exact le_refl _
  | obj p =>
    rcases hA : ruleA s p with _ | r1
    · simp [incoming, hA]
    · simp only [incoming, hA]
      have h1 := ruleA_term_mono s p r1 hA
      have hB : r1.1.term ≤ (ruleB r1.1 p).1.term := by rw [ruleB_term]
      have hD := dispatch_term_mono (ruleB r1.1 p).1 p
      exact le_trans h1 (le_trans hB hD)

theorem incoming_name (s : NodeState) (d : Inbound) :
    (incoming s d).st.name = s.name := by
  cases d with
  | nonObject => rfl
  | jsNull => rfl
  | obj p =>
    rcases hA : ruleA s p with _ | r1
    · simp [incoming, hA]
    · simp only [incoming, hA]
      rw [dispatch_name, ruleB_name, ruleA_name s p r1 hA]

theorem incoming_leader (s : NodeState) (d : Inbound) :
    (incoming s d).st.leader = s.leader ∨ (incoming s d).st.leader = some s.name := by
  cases d with
  | nonObject => exact Or.inl rfl
  | jsNull => exact Or.inl rfl
  | obj p =>
    rcases hA : ruleA s p with _ | r1
    · simp [incoming, hA]
    · simp only [incoming, hA]
      rcases dispatch_leader (ruleB r1.1 p).1 p with h | h
      · rw [h, ruleB_leader, ruleA_leader s p r1 hA]
        exact Or.inl rfl
      · rw [h, ruleB_name, ruleA_name s p r1 hA]
        exact Or.inr rfl

@[simp] theorem promote_term (s : NodeState) : (promote s).1.term = s.term + 1 := by
  simp [promote]

@[simp] theorem promote_name (s : NodeState) : (promote s).1.name = s.name := by
  simp [promote]

@[simp] theorem promote_leader (s : NodeState) : (promote s).1.leader = some "" := by
  simp [promote]

theorem heartbeatTimerFire_term_mono (s : NodeState) :
    s.term ≤ (heartbeatTimerFire s).1.term := by
  unfold heartbeatTimerFire
  dsimp only
  split_ifs with h
  · rw [promote_term]
    show s.term ≤ s.term + 1
    omega
  · exact le_refl _

theorem heartbeatTimerFire_name (s : NodeState) :
    (heartbeatTimerFire s).1.name = s.name := by
  unfold heartbeatTimerFire
  dsimp only
  split_ifs with h
  · rw [promote_name]
  · rfl

theorem heartbeatTimerFire_leader (s : NodeState) :
    (heartbeatTimerFire s).1.leader = s.leader ∨ (heartbeatTimerFire s).1.leader = some "" := by
  unfold heartbeatTimerFire
  dsimp only
  split_ifs with h
  · exact Or.inr (promote_leader _)
  · exact Or.inl rfl

theorem readStep_term_mono (s : NodeState) (d : Inbound) :
    s.term ≤ (readStep s d).term := by
  unfold readStep
  split
  · exact le_refl _
  · exact incoming_term_mono s d

theorem readStep_name (s : NodeState) (d : Inbound) :
    (readStep s d).name = s.name := by
  unfold readStep
  split
  · rfl
  · exact incoming_name s d

theorem readStep_leader (s : NodeState) (d : Inbound) :
    (readStep s d).leader = s.leader ∨ (readStep s d).leader = some s.name := by
  unfold readStep
  split
  · exact Or.inl rfl
  · exact incoming_leader s d

@[simp] theorem endNode_term (s : NodeState) : (endNode s).1.term = s.term := by
  unfold endNode
  split <;> rfl

@[simp] theorem endNode_name (s : NodeState) : (endNode s).1.name = s.name := by
  unfold endNode
  split <;> rfl

@[simp] theorem endNode_leader (s : NodeState) : (endNode s).1.leader = s.leader := by
  unfold endNode
  split <;> rfl

@[simp] theorem changeState_state (s : NodeState) (v? : Option Int) :
    (changeState s v?).1.state = v?.elim s.state some := by
  cases v? with
  | none => rfl
  | some v =>
    by_cases h : some v = s.state
    · have h1 : (changeState s (some v)).1 = s := by simp [changeState, h]
      rw [h1]
      exact h.symm
    · simp [changeState, h]

@[simp] theorem change_state (s : NodeState) (d : Delta) :
    (change s d).1.state = d.state.elim s.state some := by
  simp [change]

@[simp] theorem electionTimerFire_term (s : NodeState) :
    (electionTimerFire s).1.term = s.term + 1 := by
  unfold electionTimerFire
  rw [promote_term]

theorem dispatch_vote (s : NodeState) (p : PacketObj) (hty : p.type = some "vote") :
    dispatch s p = voteCase s p := by
  unfold dispatch
  rw [hty, if_neg (by decide), if_pos rfl]

theorem dispatch_voted (s : NodeState) (p : PacketObj) (hty : p.type = some "voted") :
    dispatch s p = votedCase s p := by
  unfold dispatch
  rw [hty, if_neg (by decide), if_neg (by decide), if_pos rfl]

theorem changeState_effs (s : NodeState) (v? : Option Int) (e : Eff)
    (he : e ∈ (changeState s v?).2) : ∃ c pv, e = Eff.stateChange c pv := by
  cases v? with
  | none => simp [changeState] at he
  | some v =>
    by_cases h : some v = s.state
    · simp [changeState, h] at he
    · simp [changeState, h] at he
      exact ⟨some v, s.state, he⟩

theorem ruleB_effs (s : NodeState) (p : PacketObj) (e : Eff)
    (he : e ∈ (ruleB s p).2) : ∃ c pv, e = Eff.stateChange c pv := by
  unfold ruleB at he
  split_ifs at he with h
  · have hch : (change s { state := some FOLLOWER }).2 = (changeState s (some FOLLOWER)).2 := by
      simp [change, changeTerm, changeLeader]
    rw [hch] at he
    exact changeState_effs s _ e he
  · simp at he

theorem changeState_timers_of_ne (s : NodeState) (v : Int) (h : some v ≠ s.state) :
    (changeState s (some v)).1.hbActive = true ∧ (changeState s (some v)).1.elActive = false := by
  simp [changeState, h, heartbeat]

theorem change_timers_of_state_ne (s : NodeState) (d : Delta) (v : Int)
    (hd : d.state = some v) (h : some v ≠ s.state) :
    (change s d).1.hbActive = true ∧ (change s d).1.elActive = false := by
  unfold change
  dsimp only
  rw [hd]
  have hst : (changeLeader (changeTerm s d.term).1 d.leader).1.state = s.state := by
    rw [changeLeader_state, changeTerm_state]
  exact changeState_timers_of_ne _ v (by rw [hst]; exact h)

theorem ruleA_eq_term (s : NodeState) (p : PacketObj) (ht : p.term = some s.term) :
    ruleA s p = some (s, []) := by
  unfold ruleA
  have h1 : jsGT p.term s.term = false := by
    rw [ht]
    simp [jsGT]
  have h2 : jsLT p.term s.term = false := by
    rw [ht]
    simp [jsLT]
  simp [h1, h2]

theorem step_name (s s' : NodeState) (h : Step s s') : s'.name = s.name := by
  cases h with
  | read d => exact readStep_name s d
  | hbFire h => exact heartbeatTimerFire_name s
  | elFire h => simp [electionTimerFire]
  | stop => exact endNode_name s

theorem step_leaderOK (s s' : NodeState) (h : Step s s') (hs : LeaderOK s) : LeaderOK s' := by
  have hname := step_name s s' h
  cases h with
  | read d =>
    rcases readStep_leader s d with hl | hl
    · unfold LeaderOK
      rw [hl, hname]
      exact hs
    · right; right
      rw [hl, hname]
  | hbFire h =>
    rcases heartbeatTimerFire_leader s with hl | hl
    · unfold LeaderOK
      rw [hl, hname]
      exact hs
    · right; left
      exact hl
  | elFire h =>
    right; left
    simp [electionTimerFire]
  | stop =>
    unfold LeaderOK
    rw [endNode_leader, hname]
    exact hs

/-! ### Claim theorems -/

/-- Claim C3: for every sequence of inbound packets and timer expiries
applied to a node, the term is monotonically non-decreasing — no
transition ever writes a term value smaller than the current one. -/
theorem term_monotone (s s' : NodeState) (h : Step s s') : s.term ≤ s'.term := by
  cases h with
  | read d => exact readStep_term_mono s d
  | hbFire h => exact heartbeatTimerFire_term_mono s
  | elFire h =>
    rw [electionTimerFire_term]
    omega
  | stop =>
    rw [endNode_term]

theorem term_monotone_witness :
    (initialNode "n1" 3).term ≤ (readStep (initialNode "n1" 3) Inbound.nonObject).term :=
  term_monotone _ _ (Step.read Inbound.nonObject)

/-- Claim C10: no inbound packet ever causes the node to record the
sender's name in its `leader` field — over every reachable state the
`leader` field is `null` (startup), the empty string (`promote`), or the
node's own name (winning an election). -/
theorem leader_never_sender_name (nm : String) (n : Nat) (s : NodeState)
    (h : Reachable (initialNode nm n) s) : LeaderOK s := by
  unfold Reachable at h
  induction h with
  | refl => exact Or.inl rfl
  | tail hab hbc ih => exact step_leaderOK _ _ hbc ih

theorem leader_never_sender_name_witness : LeaderOK (initialNode "n1" 3) :=
  leader_never_sender_name "n1" 3 (initialNode "n1" 3) Relation.ReflTransGen.refl

/-- Claim C6: whenever a `change` transition writes a new term value,
the vote record is reset — `voted-for = none` and `granted = 0` — within
that same transition, at the point the term change takes effect (the
synchronous `'term change'` listener). -/
theorem term_change_resets_votes (s : NodeState) (d : Delta)
    (h : (change s d).1.term ≠ s.term) :
    (change s d).1.votesFor = none ∧ (change s d).1.votesGranted = 0 :=
  change_votes_of_term_ne s d h

theorem term_change_resets_votes_witness :
    (change { initialNode "n1" 3 with votesFor := some "a", votesGranted := 2 }
        { term := some 7 }).1.votesFor = none ∧
    (change { initialNode "n1" 3 with votesFor := some "a", votesGranted := 2 }
        { term := some 7 }).1.votesGranted = 0 :=
  term_change_resets_votes _ _ (by decide)

/-- Claim C5: an inbound packet whose term is strictly below the node's
current term is dropped with no further processing — the state is
unchanged, no reply is written, no event is emitted, and no error is
raised (this covers stale vote solicitations as well). -/
theorem stale_term_drop (s : NodeState) (p : PacketObj) (t : Int)
    (ht : p.term = some t) (hlt : t < s.term) :
    incoming s (Inbound.obj p) = ⟨s, [], false⟩ := by
  have hA : ruleA s p = none := by
    unfold ruleA
    have h1 : jsGT p.term s.term = false := by
      rw [ht]
      simp [jsGT]
      omega
    have h2 : jsLT p.term s.term = true := by
      rw [ht]
      simp [jsLT]
      omega
    simp [h1, h2]
  simp [incoming, hA]

theorem stale_term_drop_witness :
    incoming { initialNode "n1" 3 with term := 5 }
        (Inbound.obj { term := some 3, type := some "vote", name := some "X" }) =
      ⟨{ initialNode "n1" 3 with term := 5 }, [], false⟩ :=
  stale_term_drop _ _ 3 rfl (by decide)

/-- Claim C9 (code bug): the claim says `read` never throws on a live
node and that any non-envelope value is silently dropped; but `null`
passes the `typeof` guard (its `typeof` is `'object'`) and the
subsequent `data.term` access throws a TypeError that escapes `read`. -/
theorem read_null_throws (s : NodeState) (h : s.state ≠ none) :
    readNode s Inbound.jsNull = CallResult.typeError := by
  unfold readNode
  rw [if_neg h]
  rfl

theorem read_null_throws_witness :
    readNode (initialNode "n1" 3) Inbound.jsNull = CallResult.typeError :=
  read_null_throws _ (by decide)

/-- Claim C2 (code bug): the claim says a LEADER whose heartbeat timer
expires hands a heartbeat packet to the transport's outbound sink and
reschedules the timer; in the code the expiry merely calls `broadcast`,
which constructs the packet and discards it (`write` is never invoked),
and the one-shot timer is never re-armed — afterwards the leader has no
active heartbeat timer and nothing reached the outbound sink. -/
theorem leader_heartbeat_expiry_unwired (s : NodeState) (h : s.state = some LEADER) :
    (heartbeatTimerFire s).1 = { s with hbActive := false } ∧
    (heartbeatTimerFire s).2 =
      [Eff.broadcastCall (packet { s with hbActive := false } "heartbeat" none)] ∧
    ∀ b, Eff.writeCall b ∉ (heartbeatTimerFire s).2 := by
  unfold heartbeatTimerFire
  dsimp only
  have hc : ¬ some LEADER ≠ ({ s with hbActive := false } : NodeState).state := by
    simp [h]
  rw [if_neg hc]
  refine ⟨rfl, rfl, ?_⟩
  intro b hb
  simp [broadcast] at hb

theorem leader_heartbeat_expiry_unwired_witness :
    (heartbeatTimerFire { initialNode "n1" 3 with state := some LEADER, hbActive := true }).1 =
      { { initialNode "n1" 3 with state := some LEADER, hbActive := true } with hbActive := false } ∧
    (heartbeatTimerFire { initialNode "n1" 3 with state := some LEADER, hbActive := true }).2 =
      [Eff.broadcastCall (packet { { initialNode "n1" 3 with state := some LEADER, hbActive := true }
        with hbActive := false } "heartbeat" none)] ∧
    ∀ b, Eff.writeCall b ∉
      (heartbeatTimerFire { initialNode "n1" 3 with state := some LEADER, hbActive := true }).2 :=
  leader_heartbeat_expiry_unwired _ rfl

/-- Claim C7 counterexample: `end()` on a fresh node returns true, and the
very next `read` (and `write`) invocation throws a TypeError instead of
returning false — the claim that they are no-ops returning false is
false. -/
theorem read_after_end_cx :
    (endNode (initialNode "n1" 3)).2 = true ∧
    readNode (endNode (initialNode "n1" 3)).1 Inbound.nonObject = CallResult.typeError ∧
    writeNode (endNode (initialNode "n1" 3)).1 = CallResult.typeError := by
  decide

/-- Claim C7 (amended): after `end()` has returned true once, subsequent
`end()` calls are no-ops returning false and raising no exception, but
`read` and `write` were assigned `null`, so invoking them throws a
TypeError rather than returning false. -/
theorem after_end_calls (s : NodeState) (d : Inbound) (h : s.state = none) :
    endNode s = (s, false) ∧ readNode s d = CallResult.typeError ∧
    writeNode s = CallResult.typeError := by
  unfold endNode readNode writeNode
  simp [h]

theorem after_end_calls_witness :
    endNode (endNode (initialNode "n1" 3)).1 = ((endNode (initialNode "n1" 3)).1, false) ∧
    readNode (endNode (initialNode "n1" 3)).1 Inbound.jsNull = CallResult.typeError ∧
    writeNode (endNode (initialNode "n1" 3)).1 = CallResult.typeError :=
  after_end_calls _ Inbound.jsNull (by decide)

/-- Claim C8 counterexample: immediately after `promote()` completes on a
fresh follower, BOTH the heartbeat and the election timers are active —
the claimed at-most-one-active-timer invariant fails right after
promotion. -/
theorem promote_two_timers_cx :
    (promote (initialNode "n1" 3)).1.hbActive = true ∧
    (promote (initialNode "n1" 3)).1.elActive = true := by
  decide

/-- Claim C8 (amended): a state change clears both timers before the
heartbeat watchdog is re-armed, but `promote()` then also arms the
election timer, so immediately after `promote()` completes from any
non-CANDIDATE state both named timers are active. -/
theorem promote_arms_both_timers (s : NodeState) (h : s.state ≠ some CANDIDATE) :
    (promote s).1.hbActive = true ∧ (promote s).1.elActive = true := by
  unfold promote
  dsimp only
  constructor
  · show (change s ⟨some (s.term + 1), some (some ""), some CANDIDATE⟩).1.hbActive = true
    exact (change_timers_of_state_ne s _ CANDIDATE rfl (Ne.symm h)).1
  · rfl

theorem promote_arms_both_timers_witness :
    (promote { initialNode "n1" 5 with term := 2 }).1.hbActive = true ∧
    (promote { initialNode "n1" 5 with term := 2 }).1.elActive = true :=
  promote_arms_both_timers _ (by decide)

/-- Claim C1 counterexample: for a peer set of size 1 the quorum function
returns `Math.ceil(1/2)+1 = 2`, not the claimed `floor(1/2)+1 = 1` — a
single node can therefore never reach its own quorum. -/
theorem quorum_not_floor_cx : quorum (initialNode "n1" 1) ≠ 1 / 2 + 1 := by
  decide

/-- Claim C1 (amended): the quorum function returns `ceil(N/2)+1` — which
is `floor(N/2)+1` for even N and `floor(N/2)+2` for odd N — and a
candidate tallying a granted same-term vote transitions to LEADER
exactly when the updated granted count has reached this value. -/
theorem quorum_ceil_and_leader_transition (s : NodeState) (p : PacketObj) (pl : PayloadObj)
    (hc : s.state = some CANDIDATE) (hty : p.type = some "voted")
    (hterm : p.term = some s.term) (hpl : p.payload = some pl) (hg : pl.granted = true)
    (hls : p.state ≠ some LEADER) :
    quorum s = (if s.nodesLen % 2 = 0 then s.nodesLen / 2 + 1 else s.nodesLen / 2 + 2) ∧
    ((incoming s (Inbound.obj p)).st.state = some LEADER ↔
      quorum s ≤ s.votesGranted + 1) := by
  constructor
  · unfold quorum
    split_ifs with hpar <;> omega
  · have hA := ruleA_eq_term s p hterm
    have hB : ruleB s p = (s, []) := by
      unfold ruleB
      rw [if_neg]
      intro hcontra
      exact hls hcontra.1
    have htal : votedTally s p pl = { s with votesGranted := s.votesGranted + 1 } := by
      unfold votedTally
      rw [if_pos]
      refine ⟨hg, ?_⟩
      rw [hterm]
      simp [jsEqNum]
    have hrec : votedReconcile { s with votesGranted := s.votesGranted + 1 } p =
        ({ s with votesGranted := s.votesGranted + 1 }, []) := by
      unfold votedReconcile
      rw [if_neg]
      rw [hterm]
      simp [jsGT]
    simp only [incoming, hA]
    rw [hB]
    try dsimp only
    rw [dispatch_voted s p hty]
    unfold votedCase
    rw [if_neg (not_ne_iff.mpr hc.symm), hpl]
    try dsimp only
    rw [htal, hrec]
    try dsimp only
    unfold votedQuorum
    split_ifs with hq
    · refine iff_of_true ?_ hq
      simp
    · refine iff_of_false ?_ hq
      simp [hc, CANDIDATE, LEADER]

theorem quorum_ceil_and_leader_transition_witness :
    quorum candTestNode =
      (if candTestNode.nodesLen % 2 = 0 then candTestNode.nodesLen / 2 + 1
       else candTestNode.nodesLen / 2 + 2) ∧
    ((incoming candTestNode (Inbound.obj votedTestPacket)).st.state = some LEADER ↔
      quorum candTestNode ≤ candTestNode.votesGranted + 1) :=
  quorum_ceil_and_leader_transition candTestNode votedTestPacket { granted := true }
    rfl rfl rfl rfl rfl (by decide)

/-- Claim C4 counterexample: a voter at term 0 with no recorded vote
grants a vote solicitation from the empty-string candidate name, and
then — because the recorded empty string is falsy — ALSO grants a
same-term solicitation from the different name "B": two same-term grants
to different candidate names. -/
theorem vote_dedup_cx :
    Eff.writeCall true ∈ (incoming (initialNode "n1" 3)
        (Inbound.obj { term := some 0, type := some "vote", name := some "" })).effs ∧
    Eff.writeCall true ∈ (incoming (incoming (initialNode "n1" 3)
        (Inbound.obj { term := some 0, type := some "vote", name := some "" })).st
        (Inbound.obj { term := some 0, type := some "vote", name := some "B" })).effs := by
  decide

/-- Claim C4 (amended): after granting its vote to a candidate with a
NON-EMPTY name in a term, every further same-term solicitation from a
different candidate name is refused with `{granted: false}` and the
recorded vote is unchanged (a vote recorded for the falsy empty-string
name does not block later grants). -/
theorem vote_dedup_nonempty_name (s : NodeState) (p : PacketObj) (v : String)
    (hv : s.votesFor = some v) (hne : v ≠ "") (hn : p.name ≠ some v)
    (ht : p.term = some s.term) (hty : p.type = some "vote") :
    Eff.writeCall true ∉ (incoming s (Inbound.obj p)).effs ∧
    Eff.writeCall false ∈ (incoming s (Inbound.obj p)).effs ∧
    (incoming s (Inbound.obj p)).st.votesFor = some v := by
  have hA := ruleA_eq_term s p ht
  have e1 : jsLT p.term s.term = false := by
    rw [ht]
    simp [jsLT]
  have e2 : jsGT p.term s.term = false := by
    rw [ht]
    simp [jsGT]
  have e3 : jsTruthy s.votesFor = true := by
    rw [hv]
    simp [jsTruthy, hne]
  have e4 : s.votesFor ≠ p.name := by
    rw [hv]
    exact fun hh => hn hh.symm
  have hvc : voteCase (ruleB s p).1 p =
      ⟨(ruleB s p).1, [Eff.voteEvent false, Eff.writeCall false], false⟩ := by
    unfold voteCase
    simp [e1, e2, e3, e4]
  simp only [incoming, hA]
  try dsimp only
  rw [dispatch_vote _ p hty, hvc]
  refine ⟨?_, ?_, ?_⟩
  · intro hmem
    simp only [List.nil_append, List.mem_append] at hmem
    rcases hmem with hmem | hmem
    · obtain ⟨c, pv, hcp⟩ := ruleB_effs s p _ hmem
      exact Eff.noConfusion hcp
    · simp at hmem
  · simp
  · rw [ruleB_votesFor, hv]

theorem vote_dedup_nonempty_name_witness :
    Eff.writeCall true ∉ (incoming { initialNode "n1" 3 with term := 4, votesFor := some "A" }
        (Inbound.obj { term := some 4, type := some "vote", name := some "B" })).effs ∧
    Eff.writeCall false ∈ (incoming { initialNode "n1" 3 with term := 4, votesFor := some "A" }
        (Inbound.obj { term := some 4, type := some "vote", name := some "B" })).effs ∧
    (incoming { initialNode "n1" 3 with term := 4, votesFor := some "A" }
        (Inbound.obj { term := some 4, type := some "vote", name := some "B" })).st.votesFor =
      some "A" :=
  vote_dedup_nonempty_name _ _ "A" rfl (by decide) (by decide) rfl rfl

end Liferaft
